import Mathlib

/-!
Verification development for the ooux business-domain modeler.

The definitions below are a shallow embedding of the model-mutation and
history engine of the repository: the data model (`src/types/index.ts`),
the zustand store actions (`src/store/modelStore.ts`), and the import
validation of `src/BusinessDomainModeler.tsx`.  TypeScript objects become
Lean structures, store actions become pure functions
`ModelState → args → ModelState`, and the impure identifier source
(`Date.now()`) becomes an explicit `now : Nat` argument from which the
same id strings are built.
-/

namespace OOUX

/-- `Attribute` from `src/types/index.ts`.  The `type` field is a union of
five string literals in TypeScript; it is embedded as a `String`. -/
structure Attribute where
  name : String
  type : String
  deriving DecidableEq

/-- `Entity` from `src/types/index.ts`.  `order` is a TypeScript `number`;
every value the store ever assigns to it is a list length or a list
index, so it is embedded as `Nat`. -/
structure Entity where
  id : String
  name : String
  order : Nat
  attributes : List Attribute
  states : List String
  actions : List String
  deriving DecidableEq

/-- `Relationship` from `src/types/index.ts`.  `from` and `to` are Lean
keywords, hence the guillemet quoting; the field names are unchanged. -/
structure Relationship where
  id : String
  «from» : String
  «to» : String
  label : String
  deriving DecidableEq

/-- `Model` from `src/types/index.ts`. -/
structure Model where
  entities : List Entity
  relationships : List Relationship
  deriving DecidableEq

/-- The store state (`ModelState` in `src/store/modelStore.ts`). -/
structure ModelState where
  model : Model
  selectedEntity : Option Entity
  isCreatingRelationship : Bool
  relationshipStart : Option Entity
  relationshipTypes : List String
  deriving DecidableEq

/-- `initialModel` from `src/store/modelStore.ts`. -/
def initialModel : Model :=
  { entities := [], relationships := [] }

/-- `initialState` from `src/store/modelStore.ts`. -/
def initialState : ModelState :=
  { model := initialModel
    selectedEntity := none
    isCreatingRelationship := false
    relationshipStart := none
    relationshipTypes := ["relates to", "contains", "belongs to"] }

/-- `addEntity` from `src/store/modelStore.ts` (lines 87-105).  `now` is
the value of `Date.now()` at the call. -/
def addEntity (s : ModelState) (now : Nat) : ModelState :=
  let newEntity : Entity :=
    { id := "entity-" ++ toString now
      name := "New Entity"
      order := s.model.entities.length
      attributes := []
      states := []
      actions := [] }
  { s with
    model := { s.model with entities := s.model.entities ++ [newEntity] }
    selectedEntity := some newEntity }

/-- `deleteEntity` from `src/store/modelStore.ts` (lines 107-116).  Note
that `selectedEntity` is set to `null` unconditionally. -/
def deleteEntity (s : ModelState) (entityId : String) : ModelState :=
  { s with
    model :=
      { entities := s.model.entities.filter (fun e => e.id != entityId)
        relationships :=
          s.model.relationships.filter
            (fun r => r.«from» != entityId && r.«to» != entityId) }
    selectedEntity := none }

/-- `Partial<Entity>`: each field is optionally present. -/
structure EntityUpdates where
  id : Option String := none
  name : Option String := none
  order : Option Nat := none
  attributes : Option (List Attribute) := none
  states : Option (List String) := none
  actions : Option (List String) := none
  deriving DecidableEq

/-- The object spread `{ ...e, ...u }`: fields present in `u` win. -/
def mergeEntity (e : Entity) (u : EntityUpdates) : Entity :=
  { id := u.id.getD e.id
    name := u.name.getD e.name
    order := u.order.getD e.order
    attributes := u.attributes.getD e.attributes
    states := u.states.getD e.states
    actions := u.actions.getD e.actions }

/-- `updateEntity` from `src/store/modelStore.ts` (lines 118-134). -/
def updateEntity (s : ModelState) (entityId : String) (updates : EntityUpdates) :
    ModelState :=
  match s.model.entities.find? (fun e => e.id == entityId) with
  | none => s
  | some updatedEntity =>
    let newEntity := mergeEntity updatedEntity updates
    { s with
      model :=
        { s.model with
          entities :=
            s.model.entities.map (fun e => if e.id == entityId then newEntity else e) }
      selectedEntity :=
        match s.selectedEntity with
        | some sel => if sel.id == entityId then some newEntity else some sel
        | none => none }

/-- `setSelectedEntity` from `src/store/modelStore.ts`. -/
def setSelectedEntity (s : ModelState) (entity : Option Entity) : ModelState :=
  { s with selectedEntity := entity }

/-- `setModel` from `src/store/modelStore.ts`. -/
def setModel (s : ModelState) (model : Model) : ModelState :=
  { s with model := model, selectedEntity := none }

/-- The degenerate object produced by spreading JavaScript `undefined`:
`{...undefined, order: i}` has only an `order` property.  Its absent
string and array fields are represented by `""` and `[]`. -/
def ghostEntity (i : Nat) : Entity :=
  { id := "", name := "", order := i, attributes := [], states := [], actions := [] }

/-- One element of `entities.map((entity, index) => ({...entity, order: index}))`,
where the element may be the `undefined` inserted by an out-of-range splice. -/
def renumberOpt (oe : Option Entity) (i : Nat) : Entity :=
  match oe with
  | some e => { e with order := i }
  | none => ghostEntity i

/-- `entities.map((entity, index) => ({...entity, order: index}))`, with the
index made explicit. -/
def assignOrders : List (Option Entity) → Nat → List Entity
  | [], _ => []
  | oe :: rest, i => renumberOpt oe i :: assignOrders rest (i + 1)

/-- `reorderEntities` from `src/store/modelStore.ts` (lines 140-158).  There
is no bounds check in the source.  `entities.splice(oldIndex, 1)` removes
one element when `oldIndex` is in range and nothing otherwise (negative
indices, which JavaScript would count from the end, are not representable
in the `Nat` embedding); `movedEntity` is then `undefined`, and
`entities.splice(newIndex, 0, movedEntity)` inserts it at
`min newIndex length` — the `take`/`drop` form below clamps the same way. -/
def reorderEntities (s : ModelState) (oldIndex newIndex : Nat) : ModelState :=
  let entities := s.model.entities
  let movedEntity : Option Entity := entities[oldIndex]?
  let remaining : List (Option Entity) :=
    if oldIndex < entities.length then (entities.eraseIdx oldIndex).map some
    else entities.map some
  let spliced : List (Option Entity) :=
    remaining.take newIndex ++ movedEntity :: remaining.drop newIndex
  { s with
    model := { s.model with entities := assignOrders spliced 0 } }

/-- `setIsCreatingRelationship` from `src/store/modelStore.ts`. -/
def setIsCreatingRelationship (s : ModelState) (creating : Bool) : ModelState :=
  { s with isCreatingRelationship := creating }

/-- `setRelationshipStart` from `src/store/modelStore.ts`. -/
def setRelationshipStart (s : ModelState) (entity : Option Entity) : ModelState :=
  { s with relationshipStart := entity }

/-- `addRelationship` from `src/store/modelStore.ts` (lines 169-184).  The
source does not check that `from` and `to` name existing entities. -/
def addRelationship (s : ModelState) (fromId toId label : String) (now : Nat) :
    ModelState :=
  let newRelationship : Relationship :=
    { id := "rel-" ++ toString now
      «from» := fromId
      «to» := toId
      label := label }
  { s with
    model :=
      { s.model with
        relationships := s.model.relationships ++ [newRelationship] } }

/-- `updateRelationshipLabel` from `src/store/modelStore.ts` (lines 186-211). -/
def updateRelationshipLabel (s : ModelState) (relId newLabel : String) : ModelState :=
  match s.model.relationships.find? (fun r => r.id == relId) with
  | none => s
  | some oldRel =>
    let updatedRel : Relationship :=
      if (oldRel.label == "contains" && newLabel == "belongs to") ||
         (oldRel.label == "belongs to" && newLabel == "contains") then
        { oldRel with label := newLabel, «from» := oldRel.«to», «to» := oldRel.«from» }
      else
        { oldRel with label := newLabel }
    { s with
      model :=
        { s.model with
          relationships :=
            s.model.relationships.map
              (fun r => if r.id == relId then updatedRel else r) } }

/-- The two property names of `Attribute` (`keyof Attribute`). -/
inductive AttrField where
  | name
  | type
  deriving DecidableEq

/-- The computed-property assignment `{ ...a, [field]: value }`. -/
def setAttrField (a : Attribute) (f : AttrField) (v : String) : Attribute :=
  match f with
  | .name => { a with name := v }
  | .type => { a with type := v }

/-- `arr.filter((_, i) => i !== index)`: keep the elements whose position
differs from `index`. -/
def filterOutIdx (l : List α) (index : Nat) : List α :=
  (l.enum.filter (fun p => p.1 != index)).map (fun p => p.2)

/-- The JavaScript array element assignment `arr[i] = x`.  When `i` is past
the end the array grows, and the skipped positions are holes that read
back as `undefined`; the holes are represented by `undef`. -/
def jsArraySet (undef : α) (l : List α) (i : Nat) (x : α) : List α :=
  if i < l.length then l.set i x
  else l ++ List.replicate (i - l.length) undef ++ [x]

/-- `addAttribute` from `src/store/modelStore.ts` (lines 214-222). -/
def addAttribute (s : ModelState) (entityId : String) : ModelState :=
  match s.model.entities.find? (fun e => e.id == entityId) with
  | none => s
  | some entity =>
    updateEntity s entityId
      { attributes := some (entity.attributes ++ [{ name := "attribute", type := "string" }]) }

/-- `addState` from `src/store/modelStore.ts` (lines 224-232). -/
def addState (s : ModelState) (entityId : String) : ModelState :=
  match s.model.entities.find? (fun e => e.id == entityId) with
  | none => s
  | some entity =>
    updateEntity s entityId { states := some (entity.states ++ ["new_state"]) }

/-- `addAction` from `src/store/modelStore.ts` (lines 234-242). -/
def addAction (s : ModelState) (entityId : String) : ModelState :=
  match s.model.entities.find? (fun e => e.id == entityId) with
  | none => s
  | some entity =>
    updateEntity s entityId { actions := some (entity.actions ++ ["new_action"]) }

/-- `removeAttribute` from `src/store/modelStore.ts` (lines 244-252). -/
def removeAttribute (s : ModelState) (entityId : String) (index : Nat) : ModelState :=
  match s.model.entities.find? (fun e => e.id == entityId) with
  | none => s
  | some entity =>
    updateEntity s entityId { attributes := some (filterOutIdx entity.attributes index) }

/-- `removeState` from `src/store/modelStore.ts` (lines 254-262). -/
def removeState (s : ModelState) (entityId : String) (index : Nat) : ModelState :=
  match s.model.entities.find? (fun e => e.id == entityId) with
  | none => s
  | some entity =>
    updateEntity s entityId { states := some (filterOutIdx entity.states index) }

/-- `removeAction` from `src/store/modelStore.ts` (lines 264-272). -/
def removeAction (s : ModelState) (entityId : String) (index : Nat) : ModelState :=
  match s.model.entities.find? (fun e => e.id == entityId) with
  | none => s
  | some entity =>
    updateEntity s entityId { actions := some (filterOutIdx entity.actions index) }

/-- `updateAttribute` from `src/store/modelStore.ts` (lines 274-283).
Reading `newAttributes[index]` out of range yields `undefined`, and
`{...undefined, [field]: value}` keeps only the assigned field; the
absent fields are represented by `""`. -/
def updateAttribute (s : ModelState) (entityId : String) (index : Nat)
    (field : AttrField) (value : String) : ModelState :=
  match s.model.entities.find? (fun e => e.id == entityId) with
  | none => s
  | some entity =>
    let undefAttr : Attribute := { name := "", type := "" }
    let newAttributes :=
      jsArraySet undefAttr entity.attributes index
        (setAttrField ((entity.attributes[index]?).getD undefAttr) field value)
    updateEntity s entityId { attributes := some newAttributes }

/-- `updateState` from `src/store/modelStore.ts` (lines 285-294). -/
def updateState (s : ModelState) (entityId : String) (index : Nat) (value : String) :
    ModelState :=
  match s.model.entities.find? (fun e => e.id == entityId) with
  | none => s
  | some entity =>
    updateEntity s entityId { states := some (jsArraySet "" entity.states index value) }

/-- `updateAction` from `src/store/modelStore.ts` (lines 296-305). -/
def updateAction (s : ModelState) (entityId : String) (index : Nat) (value : String) :
    ModelState :=
  match s.model.entities.find? (fun e => e.id == entityId) with
  | none => s
  | some entity =>
    updateEntity s entityId { actions := some (jsArraySet "" entity.actions index value) }

/-- `startRelationshipFromEntity` from `src/store/modelStore.ts` (lines 308-313). -/
def startRelationshipFromEntity (s : ModelState) (entity : Entity) : ModelState :=
  { s with isCreatingRelationship := true, relationshipStart := some entity }

/-- `cancelRelationship` from `src/store/modelStore.ts` (lines 315-320). -/
def cancelRelationship (s : ModelState) : ModelState :=
  { s with isCreatingRelationship := false, relationshipStart := none }

/-- `handleEntityClick` from `src/store/modelStore.ts` (lines 322-336).
When relationship mode is active, a relationship is added only when an
anchor exists and differs from the clicked entity, and then
`cancelRelationship` runs unconditionally; otherwise the click selects. -/
def handleEntityClick (s : ModelState) (entity : Entity) (now : Nat) : ModelState :=
  if s.isCreatingRelationship then
    let s' :=
      match s.relationshipStart with
      | some start =>
        if start.id != entity.id then
          addRelationship s start.id entity.id "relates to" now
        else s
      | none => s
    cancelRelationship s'
  else
    setSelectedEntity s (some entity)

/-- `completeRelationship` from `src/store/modelStore.ts` (lines 338-344). -/
def completeRelationship (s : ModelState) (entity : Entity) (now : Nat) : ModelState :=
  let s' :=
    match s.relationshipStart with
    | some start =>
      if start.id != entity.id then
        addRelationship s start.id entity.id "relates to" now
      else s
    | none => s
  cancelRelationship s'

/-! Query helpers and invariants over the document. -/

/-- The ids of the entities of a document. -/
def entityIds (m : Model) : List String :=
  m.entities.map Entity.id

/-- Referential integrity (spec §3, invariant 3): every relationship's
`from` and `to` name an entity present in `entities`. -/
def relIntegrity (m : Model) : Prop :=
  ∀ r ∈ m.relationships, r.«from» ∈ entityIds m ∧ r.«to» ∈ entityIds m

instance (m : Model) : Decidable (relIntegrity m) := by
  unfold relIntegrity; infer_instance

/-- Order density (spec §3, invariant 5): the multiset of `order` values
is exactly `{0, …, N-1}` — equivalently, the orders sorted ascending are
the dense sequence `0..N-1`. -/
def denseOrders (m : Model) : Prop :=
  (m.entities.map Entity.order).Perm (List.range m.entities.length)

instance (m : Model) : Decidable (denseOrders m) := by
  unfold denseOrders; infer_instance

/-! The Mutation Engine operation surface, as a reified datatype, and
reachability of store states through it. -/

/-- One Mutation Engine call with its arguments (the operations named in
spec §4.2); `now` arguments carry the `Date.now()` values. -/
inductive MutOp where
  | addEntity (now : Nat)
  | deleteEntity (entityId : String)
  | updateEntity (entityId : String) (updates : EntityUpdates)
  | reorderEntities (oldIndex newIndex : Nat)
  | addRelationship (fromId toId label : String) (now : Nat)
  | updateRelationshipLabel (relId newLabel : String)
  | addAttribute (entityId : String)
  | addState (entityId : String)
  | addAction (entityId : String)
  | removeAttribute (entityId : String) (index : Nat)
  | removeState (entityId : String) (index : Nat)
  | removeAction (entityId : String) (index : Nat)
  | updateAttribute (entityId : String) (index : Nat) (field : AttrField) (value : String)
  | updateState (entityId : String) (index : Nat) (value : String)
  | updateAction (entityId : String) (index : Nat) (value : String)

/-- Apply one Mutation Engine operation to the store state. -/
def applyOp (s : ModelState) : MutOp → ModelState
  | .addEntity now => addEntity s now
  | .deleteEntity entityId => deleteEntity s entityId
  | .updateEntity entityId updates => updateEntity s entityId updates
  | .reorderEntities oldIndex newIndex => reorderEntities s oldIndex newIndex
  | .addRelationship fromId toId label now => addRelationship s fromId toId label now
  | .updateRelationshipLabel relId newLabel => updateRelationshipLabel s relId newLabel
  | .addAttribute entityId => addAttribute s entityId
  | .addState entityId => addState s entityId
  | .addAction entityId => addAction s entityId
  | .removeAttribute entityId index => removeAttribute s entityId index
  | .removeState entityId index => removeState s entityId index
  | .removeAction entityId index => removeAction s entityId index
  | .updateAttribute entityId index field value => updateAttribute s entityId index field value
  | .updateState entityId index value => updateState s entityId index value
  | .updateAction entityId index value => updateAction s entityId index value

/-- Apply a sequence of Mutation Engine operations, oldest first. -/
def runOps (s : ModelState) (ops : List MutOp) : ModelState :=
  ops.foldl applyOp s

/-- The call discipline the documented gesture/API surface obeys at state
`s` (spec §4.2): `addRelationship` is invoked only with ids of entities
present at the call, and `updateEntity` is not used to rewrite an
entity's `id`.  Every other operation is unrestricted. -/
def goodOp (s : ModelState) : MutOp → Prop
  | .addRelationship fromId toId _label _now =>
    fromId ∈ entityIds s.model ∧ toId ∈ entityIds s.model
  | .updateEntity _entityId updates => updates.id = none
  | _ => True

instance (s : ModelState) (op : MutOp) : Decidable (goodOp s op) := by
  cases op <;> simp only [goodOp] <;> infer_instance

/-- States reachable from the initial empty store by Mutation Engine
operations that respect `goodOp` at each step. -/
inductive ReachGood : ModelState → Prop where
  | init : ReachGood initialState
  | step {s : ModelState} (op : MutOp) : ReachGood s → goodOp s op →
      ReachGood (applyOp s op)

/-! History manager.  The live history is the zundo `temporal` middleware,
configured in `src/store/modelStore.ts` (lines 346-351) with `limit: 50`
and `equality` = deep equality via `JSON.stringify`; the middleware's own
implementation is a library and is not under `src/`. -/

/-- History = ordered snapshots plus a cursor (spec §3). -/
structure TemporalHistory where
  snapshots : List Model
  cursor : Nat
  deriving DecidableEq

/-- Modelled from the spec: `record(document)` of the History Manager
(spec §4.4) — the behavior of the zundo temporal middleware, whose
implementation is not under `src/`; `src/store/modelStore.ts` configures
it with bound `K = 50` and deep equality.  If `document` deep-equals the
snapshot at the cursor, no-op; otherwise truncate to `[0..cursor]`,
append a deep copy of `document` (deep copy is the identity on these
pure values), advance the cursor to the new last index, and if the
length exceeds 50, drop from the front and shift the cursor. -/
def record (h : TemporalHistory) (d : Model) : TemporalHistory :=
  if h.snapshots[h.cursor]? = some d then h
  else
    let appended := h.snapshots.take (h.cursor + 1) ++ [d]
    if appended.length > 50 then
      { snapshots := appended.drop (appended.length - 50), cursor := 50 - 1 }
    else
      { snapshots := appended, cursor := appended.length - 1 }

/-! Serialization Gateway: import validation, from `handleFileImport` in
`src/BusinessDomainModeler.tsx` (lines 962-1016; the legacy variant at
lines 303-353 validates identically).  `JSON.parse` output is embedded as
`JsValue`; a `JSON.parse` failure on malformed text aborts the handler
through the same `catch` as the shape errors below. -/

/-- A parsed JavaScript value.  `undefined` arises from property access,
never from `JSON.parse` itself.  Numeric precision plays no role here, so
numbers are embedded as `Int`. -/
inductive JsValue where
  | null
  | undefined
  | bool (b : Bool)
  | num (n : Int)
  | str (s : String)
  | arr (elems : List JsValue)
  | obj (fields : List (String × JsValue))

/-- Property lookup among an object's fields. -/
def jsLookup (fields : List (String × JsValue)) (key : String) : Option JsValue :=
  (fields.find? (fun p => p.1 == key)).map (fun p => p.2)

/-- The member access `v.key`: a TypeError on `null`/`undefined` (which the
surrounding `try`/`catch` turns into an import failure), the field or
`undefined` on an object, and `undefined` on any other value. -/
def jsProp : JsValue → String → Except String JsValue
  | .null, key => .error ("TypeError: cannot read properties of null: " ++ key)
  | .undefined, key => .error ("TypeError: cannot read properties of undefined: " ++ key)
  | .obj fields, key => .ok ((jsLookup fields key).getD .undefined)
  | _, _ => .ok .undefined

/-- The validation of `handleFileImport`: `jsonData.entities` and
`jsonData.relationships` must each pass
`!(!x || !Array.isArray(x))` — since a JavaScript array is always
truthy, that combined test accepts exactly the arrays.  The checks run
in source order: `entities` first, then `relationships`. -/
def validateImport (jsonData : JsValue) : Except String (List JsValue × List JsValue) :=
  match jsProp jsonData "entities" with
  | .error e => .error e
  | .ok ents =>
    match ents with
    | .arr entityItems =>
      match jsProp jsonData "relationships" with
      | .error e => .error e
      | .ok rels =>
        match rels with
        | .arr relItems => .ok (entityItems, relItems)
        | _ => .error "Invalid file format: missing or invalid relationships array"
    | _ => .error "Invalid file format: missing or invalid entities array"

/-- The state `handleFileImport` can read or write: the live document
(which the import replaces with the raw parsed arrays), the selection,
and the undo history (cleared on success via `temporal.clear()`). -/
structure ImportState where
  docEntities : List JsValue
  docRelationships : List JsValue
  selection : Option JsValue
  history : List (List JsValue × List JsValue)

/-- The state effect of `handleFileImport` on parsed JSON `jsonData`:
on a validation (or parse) error the `catch` branch only alerts, so the
state is returned untouched; on success, if the current document is
non-empty the user must confirm (`confirmReplace`), and then the document
is replaced, the selection cleared, and the history cleared. -/
def handleFileImport (s : ImportState) (jsonData : JsValue) (confirmReplace : Bool) :
    ImportState :=
  match validateImport jsonData with
  | .error _ => s
  | .ok (entityItems, relItems) =>
    if (s.docEntities.length > 0 || s.docRelationships.length > 0) && !confirmReplace then
      s
    else
      { docEntities := entityItems
        docRelationships := relItems
        selection := none
        history := [] }

/-- Whether a value is a JavaScript object (the parsed top level must be
one for import to succeed). -/
def JsValue.isObj : JsValue → Bool
  | .obj _ => true
  | _ => false

/-- Whether a value is an array. -/
def JsValue.isArr : JsValue → Bool
  | .arr _ => true
  | _ => false

/-- The fault conditions named by the spec for import: the parsed
top-level value is not an object, or its `entities` field is missing or
not an array, or its `relationships` field is missing or not an array. -/
def importShapeBad (v : JsValue) : Bool :=
  match v with
  | .obj fields =>
    !((jsLookup fields "entities").getD .undefined).isArr ||
    !((jsLookup fields "relationships").getD .undefined).isArr
  | _ => true

/-! Concrete fixtures used by counterexamples and witnesses. -/

/-- A concrete entity with id "A". -/
def entA : Entity :=
  { id := "A", name := "Alpha", order := 0, attributes := [], states := [], actions := [] }

/-- A concrete entity with id "B". -/
def entB : Entity :=
  { id := "B", name := "Beta", order := 1, attributes := [], states := [], actions := [] }

/-- A concrete "contains" relationship from A to B. -/
def relAB : Relationship :=
  { id := "r1", «from» := "A", «to» := "B", label := "contains" }

/-- A store state holding entities A and B, in relationship-creation mode
with no anchor chosen. -/
def armedlessState : ModelState :=
  { model := { entities := [entA, entB], relationships := [] }
    selectedEntity := none
    isCreatingRelationship := true
    relationshipStart := none
    relationshipTypes := ["relates to", "contains", "belongs to"] }

/-- A store state holding entities A and B, in relationship-creation mode
anchored at A. -/
def armedState : ModelState :=
  { model := { entities := [entA, entB], relationships := [] }
    selectedEntity := none
    isCreatingRelationship := true
    relationshipStart := some entA
    relationshipTypes := ["relates to", "contains", "belongs to"] }

/-- A quiescent store state holding entities A and B with A selected. -/
def selectedState : ModelState :=
  { model := { entities := [entA, entB], relationships := [relAB] }
    selectedEntity := some entA
    isCreatingRelationship := false
    relationshipStart := none
    relationshipTypes := ["relates to", "contains", "belongs to"] }

/-! ## C4 — gesture arming -/

/-- C4 counterexample: in the state "mode active, no anchor", clicking an
entity does not arm the gesture with that entity as anchor — the source's
`handleEntityClick` runs `cancelRelationship()` instead, so the anchor
stays `none` and the mode switches off, contradicting the claim that the
state transitions to Armed(anchor = entity) with the mode staying
active. -/
theorem claim4_counterexample :
    (handleEntityClick armedlessState entA 0).relationshipStart ≠ some entA ∧
    (handleEntityClick armedlessState entA 0).isCreatingRelationship = false ∧
    (handleEntityClick armedlessState entA 0).model = armedlessState.model := by
  decide

/-- C4 (amended): whenever relationship-creation mode is active with no
anchor chosen, `handleEntityClick entity` cancels the gesture — the mode
switches off, the anchor stays `none`, and no relationship is added;
arming with an anchor is done by `startRelationshipFromEntity`, which
sets the mode active and the anchor to the given entity. -/
theorem claim4_gesture_arming (s : ModelState) (entity : Entity) (now : Nat)
    (h1 : s.isCreatingRelationship = true) (h2 : s.relationshipStart = none) :
    startRelationshipFromEntity s entity
      = { s with isCreatingRelationship := true, relationshipStart := some entity } ∧
    handleEntityClick s entity now
      = { s with isCreatingRelationship := false, relationshipStart := none } ∧
    (handleEntityClick s entity now).model = s.model := by
  refine ⟨rfl, ?_, ?_⟩ <;>
    simp [handleEntityClick, h1, h2, cancelRelationship]

/-- C4 witness: the amended theorem applied to the concrete
state `armedlessState` and entity `entB`. -/
theorem claim4_gesture_arming_witness :
    startRelationshipFromEntity armedlessState entB
      = { armedlessState with
            isCreatingRelationship := true, relationshipStart := some entB } ∧
    handleEntityClick armedlessState entB 0
      = { armedlessState with
            isCreatingRelationship := false, relationshipStart := none } ∧
    (handleEntityClick armedlessState entB 0).model = armedlessState.model :=
  claim4_gesture_arming armedlessState entB 0 (by decide) (by decide)

/-! ## C5 — self-click while Armed -/

/-- C5 counterexample: with the gesture Armed at A, clicking A again does
leave the document unchanged, but the gesture does not remain Armed — the
source runs `cancelRelationship()` unconditionally, so the state
transitions to Idle (mode off, anchor cleared), contradicting the claim
that it stays Armed with anchor A. -/
theorem claim5_counterexample :
    (handleEntityClick armedState entA 0).isCreatingRelationship = false ∧
    (handleEntityClick armedState entA 0).relationshipStart = none ∧
    (handleEntityClick armedState entA 0).model = armedState.model := by
  decide

/-- C5 (amended): when the gesture is Armed with anchor X and the clicked
entity has X's id, no relationship is created (so no relationship with
`from = to` is produced: the document is untouched), and the gesture
transitions to Idle — mode off, anchor cleared — rather than remaining
Armed. -/
theorem claim5_self_click (s : ModelState) (x entity : Entity) (now : Nat)
    (h1 : s.isCreatingRelationship = true) (h2 : s.relationshipStart = some x)
    (h3 : x.id = entity.id) :
    handleEntityClick s entity now
      = { s with isCreatingRelationship := false, relationshipStart := none } ∧
    (handleEntityClick s entity now).model = s.model := by
  constructor <;>
    simp [handleEntityClick, h1, h2, h3, cancelRelationship]

/-- C5 witness: the amended theorem applied to the concrete armed state
and its own anchor A. -/
theorem claim5_self_click_witness :
    handleEntityClick armedState entA 0
      = { armedState with isCreatingRelationship := false, relationshipStart := none } ∧
    (handleEntityClick armedState entA 0).model = armedState.model :=
  claim5_self_click armedState entA entA 0 (by decide) (by decide) rfl

/-! ## C9 — deleteEntity totality and silent no-op -/

/-- C9 counterexample: deleting a nonexistent id is not a full no-op — the
source sets `selectedEntity` to `null` unconditionally, so a live
selection is lost even though no entity with the id exists, contradicting
the claim that all state is left unchanged. -/
theorem claim9_counterexample :
    (∀ e ∈ selectedState.model.entities, e.id ≠ "zzz") ∧
    selectedState.selectedEntity = some entA ∧
    (deleteEntity selectedState "zzz").selectedEntity = none ∧
    (deleteEntity selectedState "zzz").model = selectedState.model := by
  decide

/-- C9 (amended): `deleteEntity id` always succeeds; it removes the entity
and every relationship whose `from` or `to` equals `id`, keeps everything
else, and leaves the gesture state unchanged; the Selection is cleared
unconditionally — also when no entity with the id exists, in which case
the entities are unchanged and the document is unchanged provided no
relationship dangles on `id`. -/
theorem claim9_delete_entity (s : ModelState) (entityId : String) :
    (deleteEntity s entityId).isCreatingRelationship = s.isCreatingRelationship ∧
    (deleteEntity s entityId).relationshipStart = s.relationshipStart ∧
    (deleteEntity s entityId).selectedEntity = none ∧
    (∀ e ∈ (deleteEntity s entityId).model.entities,
      e.id ≠ entityId ∧ e ∈ s.model.entities) ∧
    (∀ e ∈ s.model.entities, e.id ≠ entityId →
      e ∈ (deleteEntity s entityId).model.entities) ∧
    (∀ r ∈ (deleteEntity s entityId).model.relationships,
      r.«from» ≠ entityId ∧ r.«to» ≠ entityId ∧ r ∈ s.model.relationships) ∧
    (∀ r ∈ s.model.relationships, r.«from» ≠ entityId → r.«to» ≠ entityId →
      r ∈ (deleteEntity s entityId).model.relationships) ∧
    (entityId ∉ entityIds s.model →
      (deleteEntity s entityId).model.entities = s.model.entities) ∧
    (entityId ∉ entityIds s.model →
      (∀ r ∈ s.model.relationships, r.«from» ≠ entityId ∧ r.«to» ≠ entityId) →
      (deleteEntity s entityId).model = s.model) := by
  refine ⟨rfl, rfl, rfl, ?_, ?_, ?_, ?_, ?_, ?_⟩
  · intro e he
    simp only [deleteEntity, List.mem_filter, bne_iff_ne] at he
    exact ⟨he.2, he.1⟩
  · intro e he hne
    simp only [deleteEntity, List.mem_filter, bne_iff_ne]
    exact ⟨he, hne⟩
  · intro r hr
    simp only [deleteEntity, List.mem_filter, Bool.and_eq_true, bne_iff_ne] at hr
    exact ⟨hr.2.1, hr.2.2, hr.1⟩
  · intro r hr h1 h2
    simp only [deleteEntity, List.mem_filter, Bool.and_eq_true, bne_iff_ne]
    exact ⟨hr, h1, h2⟩
  · intro hid
    simp only [deleteEntity]
    rw [List.filter_eq_self]
    intro e he
    rw [bne_iff_ne]
    intro hcontra
    exact hid (hcontra ▸ List.mem_map_of_mem Entity.id he)
  · intro hid hr
    simp only [deleteEntity]
    have hent : s.model.entities.filter (fun e => e.id != entityId) = s.model.entities := by
      rw [List.filter_eq_self]
      intro e he
      rw [bne_iff_ne]
      intro hcontra
      exact hid (hcontra ▸ List.mem_map_of_mem Entity.id he)
    have hrel : s.model.relationships.filter
        (fun r => r.«from» != entityId && r.«to» != entityId) = s.model.relationships := by
      rw [List.filter_eq_self]
      intro r hmem
      have := hr r hmem
      simp [bne_iff_ne, this.1, this.2]
    rw [hent, hrel]

/-- C9 witness: the amended theorem applied to the concrete state
`selectedState` and the absent id "zzz". -/
theorem claim9_delete_entity_witness :
    (deleteEntity selectedState "zzz").model = selectedState.model :=
  (claim9_delete_entity selectedState "zzz").2.2.2.2.2.2.2.2
    (by decide) (by decide)

/-! ## Shared lemmas about replacing the relationship matching an id -/

/-- `find?` on the list where every id-match was replaced by `upd` (with
`upd` itself matching) returns `upd`, provided the original `find?`
succeeded. -/
theorem find?_map_replace (rels : List Relationship) (relId : String)
    (upd r : Relationship) (hupd : upd.id = relId)
    (hfind : rels.find? (fun x => x.id == relId) = some r) :
    (rels.map (fun x => if x.id == relId then upd else x)).find?
      (fun x => x.id == relId) = some upd := by
  induction rels with
  | nil => simp at hfind
  | cons a t ih =>
    by_cases h : a.id = relId
    · simp [List.find?_cons, h, hupd]
    · have hb : (a.id == relId) = false := by simp [h]
      simp only [List.find?_cons, hb] at hfind
      simp only [List.map_cons, hb, if_false, List.find?_cons, Bool.false_eq_true]
      exact ih hfind

/-- Elements whose id differs from `relId` are untouched, position by
position, by the id-match replacement. -/
theorem getElem?_map_replace (rels : List Relationship) (relId : String)
    (upd : Relationship) (k : Nat) (hk : k < rels.length)
    (hne : (rels[k]).id ≠ relId) :
    (rels.map (fun x => if x.id == relId then upd else x))[k]? = some rels[k] := by
  rw [List.getElem?_map, List.getElem?_eq_getElem hk]
  simp [hne]

/-! ## C3 — label-flip round trip -/

/-- C3: on a relationship currently labeled "contains",
`updateRelationshipLabel relId "belongs to"` swaps the endpoints and sets
the label to "belongs to", keeping the id; applying
`updateRelationshipLabel relId "contains"` afterwards restores the
original store state exactly.  `huniq` pins the id to a single
relationship, as the document invariant (spec §3, invariant 2)
guarantees. -/
theorem claim3_label_flip_roundtrip (s : ModelState) (relId : String) (r : Relationship)
    (hfind : s.model.relationships.find? (fun x => x.id == relId) = some r)
    (hlabel : r.label = "contains")
    (huniq : ∀ x ∈ s.model.relationships, x.id = relId → x = r) :
    (updateRelationshipLabel s relId "belongs to").model.relationships.find?
        (fun x => x.id == relId)
      = some { id := r.id, «from» := r.«to», «to» := r.«from», label := "belongs to" } ∧
    updateRelationshipLabel (updateRelationshipLabel s relId "belongs to") relId "contains"
      = s := by
  have hrid : r.id = relId := by
    have := List.find?_some hfind
    simpa using this
  have hflip1 : ((r.label == "contains" && ("belongs to" : String) == "belongs to") ||
      (r.label == "belongs to" && ("belongs to" : String) == "contains")) = true := by
    simp [hlabel]
  set upd1 : Relationship :=
    { id := r.id, «from» := r.«to», «to» := r.«from», label := "belongs to" } with hupd1
  have hstep1 : (updateRelationshipLabel s relId "belongs to").model.relationships
      = s.model.relationships.map (fun x => if x.id == relId then upd1 else x) := by
    simp only [updateRelationshipLabel, hfind, hflip1]
    rfl
  have hfind1 : (updateRelationshipLabel s relId "belongs to").model.relationships.find?
      (fun x => x.id == relId) = some upd1 := by
    rw [hstep1]
    exact find?_map_replace _ _ _ _ hrid hfind
  refine ⟨hfind1, ?_⟩
  have hflip2 : ((upd1.label == "contains" && ("contains" : String) == "belongs to") ||
      (upd1.label == "belongs to" && ("contains" : String) == "contains")) = true := by
    simp [hupd1]
  have hupd2 : ({ upd1 with
      label := "contains", «from» := upd1.«to», «to» := upd1.«from» } : Relationship) = r := by
    cases r
    simp_all
  have hstate1 : updateRelationshipLabel s relId "belongs to"
      = { s with model :=
            { s.model with
              relationships := s.model.relationships.map (fun x => if x.id == relId then upd1 else x) } } := by
    simp only [updateRelationshipLabel, hfind, hflip1]
    rfl
  have hback : (s.model.relationships.map (fun x => if x.id == relId then upd1 else x)).map
        (fun x => if x.id == relId then r else x)
      = s.model.relationships := by
    rw [List.map_map]
    have : ∀ x ∈ s.model.relationships,
        ((fun x => if x.id == relId then r else x) ∘
          (fun x => if x.id == relId then upd1 else x)) x = id x := by
      intro x hx
      by_cases hxid : x.id = relId
      · simp only [Function.comp_apply, hxid, beq_self_eq_true, if_true, id]
        have hup : (upd1.id == relId) = true := by simp [hupd1, hrid]
        rw [hup]
        simp only [if_true]
        exact (huniq x hx hxid).symm
      · simp [hxid]
    rw [List.map_congr_left this, List.map_id]
  have hfind1' : (s.model.relationships.map
        (fun x => if x.id == relId then upd1 else x)).find? (fun x => x.id == relId)
      = some upd1 :=
    find?_map_replace _ _ _ _ hrid hfind
  rw [hstate1]
  simp only [updateRelationshipLabel, hfind1', hflip2, if_true]
  rw [hupd2, hback]

/-- C3 witness: the round trip evaluated on the concrete state
`selectedState`, whose relationship "r1" is A-contains-B. -/
theorem claim3_label_flip_roundtrip_witness :
    (updateRelationshipLabel selectedState "r1" "belongs to").model.relationships.find?
        (fun x => x.id == "r1")
      = some { id := "r1", «from» := "B", «to» := "A", label := "belongs to" } ∧
    updateRelationshipLabel (updateRelationshipLabel selectedState "r1" "belongs to")
        "r1" "contains"
      = selectedState :=
  claim3_label_flip_roundtrip selectedState "r1" relAB (by decide) (by decide) (by decide)

/-! ## C10 — frame property of updateRelationshipLabel -/

/-- C10: `updateRelationshipLabel relId newLabel` on a document containing
relationship id `relId` preserves that relationship's id, leaves every
relationship at a position whose id differs untouched, leaves the
entities, the selection, the gesture state and the relationship count
unchanged, and when the transition is not a "contains"/"belongs to"
switch the endpoints are also unchanged — only the label changes. -/
theorem claim10_update_label_frame (s : ModelState) (relId newLabel : String)
    (r : Relationship)
    (hfind : s.model.relationships.find? (fun x => x.id == relId) = some r) :
    (updateRelationshipLabel s relId newLabel).model.entities = s.model.entities ∧
    (updateRelationshipLabel s relId newLabel).selectedEntity = s.selectedEntity ∧
    (updateRelationshipLabel s relId newLabel).isCreatingRelationship
      = s.isCreatingRelationship ∧
    (updateRelationshipLabel s relId newLabel).relationshipStart = s.relationshipStart ∧
    (updateRelationshipLabel s relId newLabel).model.relationships.length
      = s.model.relationships.length ∧
    (∀ k, (hk : k < s.model.relationships.length) →
      (s.model.relationships[k]).id ≠ relId →
      (updateRelationshipLabel s relId newLabel).model.relationships[k]?
        = some s.model.relationships[k]) ∧
    (∃ upd : Relationship,
      (updateRelationshipLabel s relId newLabel).model.relationships.find?
          (fun x => x.id == relId) = some upd ∧
      upd.id = r.id ∧ upd.label = newLabel ∧
      (¬ ((r.label = "contains" ∧ newLabel = "belongs to") ∨
          (r.label = "belongs to" ∧ newLabel = "contains")) →
        upd.«from» = r.«from» ∧ upd.«to» = r.«to»)) := by
  have hrid : r.id = relId := by
    have := List.find?_some hfind
    simpa using this
  by_cases hc : ((r.label == "contains" && newLabel == "belongs to") ||
      (r.label == "belongs to" && newLabel == "contains")) = true
  · have hstep : updateRelationshipLabel s relId newLabel
        = { s with model :=
              { s.model with
                relationships := s.model.relationships.map (fun x => if x.id == relId then { r with label := newLabel, «from» := r.«to», «to» := r.«from» } else x) } } := by
      simp only [updateRelationshipLabel, hfind, hc]
      rfl
    rw [hstep]
    refine ⟨rfl, rfl, rfl, rfl, List.length_map _ _, ?_, ?_⟩
    · intro k hk hne
      exact getElem?_map_replace _ _ _ _ hk hne
    · refine ⟨{ r with label := newLabel, «from» := r.«to», «to» := r.«from» },
        find?_map_replace _ _ _ _ hrid hfind, rfl, rfl, ?_⟩
      intro hnot
      simp only [Bool.or_eq_true, Bool.and_eq_true, beq_iff_eq] at hc
      exact absurd hc hnot
  · have hc' : ((r.label == "contains" && newLabel == "belongs to") ||
        (r.label == "belongs to" && newLabel == "contains")) = false :=
      Bool.not_eq_true _ ▸ Bool.of_not_eq_true hc
    have hstep : updateRelationshipLabel s relId newLabel
        = { s with model :=
              { s.model with
                relationships := s.model.relationships.map (fun x => if x.id == relId then { r with label := newLabel } else x) } } := by
      simp only [updateRelationshipLabel, hfind, hc']
      rfl
    rw [hstep]
    refine ⟨rfl, rfl, rfl, rfl, List.length_map _ _, ?_, ?_⟩
    · intro k hk hne
      exact getElem?_map_replace _ _ _ _ hk hne
    · exact ⟨{ r with label := newLabel },
        find?_map_replace _ _ _ _ hrid hfind, rfl, rfl, fun _ => ⟨rfl, rfl⟩⟩

/-- C10 witness: the frame property evaluated on the concrete state
`selectedState`, updating relationship "r1" to the non-flip label
"relates to". -/
theorem claim10_update_label_frame_witness :
    (updateRelationshipLabel selectedState "r1" "relates to").model.entities
      = selectedState.model.entities ∧
    (updateRelationshipLabel selectedState "r1" "relates to").selectedEntity
      = selectedState.selectedEntity ∧
    (updateRelationshipLabel selectedState "r1" "relates to").isCreatingRelationship
      = selectedState.isCreatingRelationship ∧
    (updateRelationshipLabel selectedState "r1" "relates to").relationshipStart
      = selectedState.relationshipStart ∧
    (updateRelationshipLabel selectedState "r1" "relates to").model.relationships.length
      = selectedState.model.relationships.length ∧
    (∀ k, (hk : k < selectedState.model.relationships.length) →
      (selectedState.model.relationships[k]).id ≠ "r1" →
      (updateRelationshipLabel selectedState "r1" "relates to").model.relationships[k]?
        = some selectedState.model.relationships[k]) ∧
    (∃ upd : Relationship,
      (updateRelationshipLabel selectedState "r1" "relates to").model.relationships.find?
          (fun x => x.id == "r1") = some upd ∧
      upd.id = relAB.id ∧ upd.label = "relates to" ∧
      (¬ ((relAB.label = "contains" ∧ ("relates to" : String) = "belongs to") ∨
          (relAB.label = "belongs to" ∧ ("relates to" : String) = "contains")) →
        upd.«from» = relAB.«from» ∧ upd.«to» = relAB.«to»)) :=
  claim10_update_label_frame selectedState "r1" "relates to" relAB (by decide)

/-! ## Lemmas about order renumbering and splicing -/

/-- The id carried by a possibly-`undefined` array element. -/
def optId : Option Entity → String
  | some e => e.id
  | none => ""

theorem renumberOpt_order (oe : Option Entity) (i : Nat) : (renumberOpt oe i).order = i := by
  cases oe <;> rfl

theorem renumberOpt_id (oe : Option Entity) (i : Nat) : (renumberOpt oe i).id = optId oe := by
  cases oe <;> rfl

theorem assignOrders_length (l : List (Option Entity)) (s : Nat) :
    (assignOrders l s).length = l.length := by
  induction l generalizing s with
  | nil => rfl
  | cons oe rest ih => simp [assignOrders, ih]

theorem assignOrders_map_order (l : List (Option Entity)) (s : Nat) :
    (assignOrders l s).map Entity.order = List.range' s l.length := by
  induction l generalizing s with
  | nil => rfl
  | cons oe rest ih =>
    simp only [assignOrders, List.map_cons, renumberOpt_order, List.length_cons,
      List.range'_succ, ih]

theorem assignOrders_map_id (l : List (Option Entity)) (s : Nat) :
    (assignOrders l s).map Entity.id = l.map optId := by
  induction l generalizing s with
  | nil => rfl
  | cons oe rest ih =>
    simp only [assignOrders, List.map_cons, renumberOpt_id, ih]

theorem assignOrders_getElem? (l : List (Option Entity)) (s k : Nat) :
    (assignOrders l s)[k]? = (l[k]?).map (fun oe => renumberOpt oe (s + k)) := by
  induction l generalizing s k with
  | nil => simp [assignOrders]
  | cons oe rest ih =>
    cases k with
    | zero => simp [assignOrders]
    | succ k =>
      simp only [assignOrders, List.getElem?_cons_succ, ih]
      have : s + 1 + k = s + (k + 1) := by omega
      rw [this]

/-- A list is a permutation of its `i`-th element consed onto the list
with index `i` erased. -/
theorem perm_getElem_cons_eraseIdx (l : List α) (i : Nat) (h : i < l.length) :
    l.Perm (l[i] :: l.eraseIdx i) := by
  conv_lhs => rw [← List.take_append_drop i l, List.drop_eq_getElem_cons h]
  rw [List.eraseIdx_eq_take_drop_succ]
  exact List.perm_middle

/-- The element placed at the splice position. -/
theorem getElem?_splice_self (l : List α) (j : Nat) (x : α) (h : j ≤ l.length) :
    (l.take j ++ x :: l.drop j)[j]? = some x := by
  have hlen : (l.take j).length = j := by
    rw [List.length_take]
    omega
  rw [List.getElem?_append_right (le_of_eq hlen), hlen, Nat.sub_self]
  exact List.getElem?_cons_zero

/-- Splicing one element into a list grows its length by one, wherever the
splice lands. -/
theorem length_splice (l : List α) (j : Nat) (x : α) :
    (l.take j ++ x :: l.drop j).length = l.length + 1 := by
  simp only [List.length_append, List.length_take, List.length_cons, List.length_drop]
  omega

/-! ## C1 — order density -/

/-- C1 counterexample: two `addEntity` from the initial state yield the
dense orders `[0, 1]`, but a single `deleteEntity` of the first entity
then leaves the orders `[1]` — the source does not renumber on delete, so
the sorted orders are not `0..N-1`, contradicting the claim for
`deleteEntity`. -/
theorem claim1_counterexample :
    denseOrders (addEntity (addEntity initialState 0) 1).model ∧
    ¬ denseOrders (deleteEntity (addEntity (addEntity initialState 0) 1) "entity-0").model := by
  decide

/-- C1 (amended): `reorderEntities` always leaves the `order` values a
dense `0..N-1` (it renumbers every survivor by position), and `addEntity`
preserves density (the new entity gets `order = N`); `deleteEntity` does
not renumber, so density can be lost there. -/
theorem claim1_order_density (s : ModelState) (now oldIndex newIndex : Nat)
    (hdense : denseOrders s.model) :
    denseOrders (addEntity s now).model ∧
    denseOrders (reorderEntities s oldIndex newIndex).model := by
  constructor
  · unfold denseOrders at hdense ⊢
    simp only [addEntity, List.map_append, List.length_append, List.map_cons,
      List.map_nil, List.length_cons, List.length_nil]
    rw [List.range_succ]
    exact List.Perm.append hdense (List.Perm.refl _)
  · unfold denseOrders
    simp only [reorderEntities]
    rw [assignOrders_map_order, assignOrders_length, List.range_eq_range']

/-- C1 witness: the amended theorem evaluated on the concrete dense state
`selectedState`. -/
theorem claim1_order_density_witness :
    denseOrders (addEntity selectedState 5).model ∧
    denseOrders (reorderEntities selectedState 0 1).model :=
  claim1_order_density selectedState 5 0 1 (by decide)

/-! ## C6 — reorder bounds -/

/-- C6 counterexample: `reorderEntities 0 5` on a two-entity document has
`newIndex = 5` out of range, yet it is not rejected as a no-op — the
splice clamps the insertion to the end, so the two entities swap. -/
theorem claim6_counterexample :
    ¬ (5 < selectedState.model.entities.length) ∧
    (reorderEntities selectedState 0 5).model ≠ selectedState.model ∧
    (reorderEntities selectedState 0 5).model.entities.map Entity.id = ["B", "A"] := by
  decide

/-- C6 (amended): `reorderEntities` performs no bounds validation.  For
in-range indices it behaves as specified: it removes the entity at
`oldIndex`, reinserts it at `newIndex` with `order = newIndex`, and keeps
exactly the same entities (same ids, same count).  Out-of-range indices
are not rejected: the underlying splices clamp, so the document can
change (and an out-of-range `oldIndex` even splices in a degenerate
entity). -/
theorem claim6_reorder_bounds (s : ModelState) (oldIndex newIndex : Nat)
    (h1 : oldIndex < s.model.entities.length)
    (h2 : newIndex < s.model.entities.length) :
    (reorderEntities s oldIndex newIndex).model.entities.length
      = s.model.entities.length ∧
    ((reorderEntities s oldIndex newIndex).model.entities.map Entity.id).Perm
      (s.model.entities.map Entity.id) ∧
    (reorderEntities s oldIndex newIndex).model.entities[newIndex]?
      = some { s.model.entities[oldIndex] with order := newIndex } := by
  have hmoved : s.model.entities[oldIndex]? = some s.model.entities[oldIndex] :=
    List.getElem?_eq_getElem h1
  have hlenErase : (s.model.entities.eraseIdx oldIndex).length
      = s.model.entities.length - 1 := by
    rw [List.length_eraseIdx]
    simp [h1]
  have hrem : newIndex ≤ ((s.model.entities.eraseIdx oldIndex).map some).length := by
    rw [List.length_map, hlenErase]
    omega
  refine ⟨?_, ?_, ?_⟩
  · simp only [reorderEntities, hmoved, if_pos h1]
    rw [assignOrders_length, length_splice, List.length_map, hlenErase]
    omega
  · simp only [reorderEntities, hmoved, if_pos h1]
    rw [assignOrders_map_id]
    set rem := (s.model.entities.eraseIdx oldIndex).map some with hremdef
    have hsplit : (rem.take newIndex ++ some s.model.entities[oldIndex] :: rem.drop newIndex).map optId
        = (rem.take newIndex).map optId ++
            (s.model.entities[oldIndex]).id :: (rem.drop newIndex).map optId := by
      simp [optId]
    rw [hsplit]
    refine List.Perm.trans List.perm_middle ?_
    rw [← List.map_take, ← List.map_drop, ← List.map_append, ← List.map_append,
      List.take_append_drop, List.map_map]
    exact (List.Perm.map Entity.id (perm_getElem_cons_eraseIdx _ _ h1)).symm
  · simp only [reorderEntities, hmoved, if_pos h1]
    rw [assignOrders_getElem?, getElem?_splice_self _ _ _ hrem]
    simp [renumberOpt]

/-- C6 witness: the in-range behavior evaluated at `selectedState` with
`reorderEntities 0 1`. -/
theorem claim6_reorder_bounds_witness :
    (reorderEntities selectedState 0 1).model.entities.length
      = selectedState.model.entities.length ∧
    ((reorderEntities selectedState 0 1).model.entities.map Entity.id).Perm
      (selectedState.model.entities.map Entity.id) ∧
    (reorderEntities selectedState 0 1).model.entities[1]?
      = some { selectedState.model.entities[0] with order := 1 } :=
  claim6_reorder_bounds selectedState 0 1 (by decide) (by decide)

/-! ## C2 — referential integrity -/

/-- Splicing `x` into `l` at any position is a permutation of `x :: l`. -/
theorem splice_perm (l : List α) (j : Nat) (x : α) :
    (l.take j ++ x :: l.drop j).Perm (x :: l) := by
  refine List.Perm.trans List.perm_middle ?_
  rw [List.take_append_drop]

theorem relationships_updateEntity (s : ModelState) (entityId : String)
    (u : EntityUpdates) :
    (updateEntity s entityId u).model.relationships = s.model.relationships := by
  unfold updateEntity
  cases s.model.entities.find? (fun e => e.id == entityId) <;> rfl

theorem entityIds_updateEntity (s : ModelState) (entityId : String)
    (u : EntityUpdates) (hu : u.id = none) :
    entityIds (updateEntity s entityId u).model = entityIds s.model := by
  unfold updateEntity
  cases hfind : s.model.entities.find? (fun e => e.id == entityId) with
  | none => rfl
  | some e0 =>
    have he0 : e0.id = entityId := by
      have := List.find?_some hfind
      simpa using this
    simp only [entityIds, List.map_map]
    apply List.map_congr_left
    intro e he
    by_cases h : e.id = entityId
    · simp [Function.comp, h, mergeEntity, hu, he0]
    · simp [Function.comp, h]

theorem integrity_updateEntity (s : ModelState) (entityId : String)
    (u : EntityUpdates) (hu : u.id = none) (hint : relIntegrity s.model) :
    relIntegrity (updateEntity s entityId u).model := by
  intro r hr
  rw [relationships_updateEntity] at hr
  rw [entityIds_updateEntity s entityId u hu]
  exact hint r hr

theorem entities_updateRelationshipLabel (s : ModelState) (relId newLabel : String) :
    (updateRelationshipLabel s relId newLabel).model.entities = s.model.entities := by
  unfold updateRelationshipLabel
  cases s.model.relationships.find? (fun r => r.id == relId) <;> rfl

/-- Any entity id present before a reorder is still present after it: an
in-range splice permutes the entities, an out-of-range one only adds a
degenerate element. -/
theorem entityIds_reorder_mem (s : ModelState) (i j : Nat) (x : String)
    (hx : x ∈ entityIds s.model) : x ∈ entityIds (reorderEntities s i j).model := by
  unfold entityIds at hx ⊢
  simp only [reorderEntities]
  rw [assignOrders_map_id]
  rw [List.Perm.mem_iff (List.Perm.map optId (splice_perm _ j _))]
  by_cases h : i < s.model.entities.length
  · rw [if_pos h]
    have hmv : s.model.entities[i]? = some s.model.entities[i] :=
      List.getElem?_eq_getElem h
    rw [hmv]
    simp only [List.map_cons, List.map_map]
    have hes : (s.model.entities.map Entity.id).Perm
        (s.model.entities[i].id :: (s.model.entities.eraseIdx i).map Entity.id) := by
      have := List.Perm.map Entity.id (perm_getElem_cons_eraseIdx s.model.entities i h)
      simpa using this
    exact hes.mem_iff.1 hx
  · rw [if_neg h]
    have hmv : s.model.entities[i]? = none := by
      rw [List.getElem?_eq_none]
      omega
    rw [hmv]
    simp only [List.map_cons, List.map_map]
    exact List.mem_cons_of_mem _ hx

theorem integrity_reorder (s : ModelState) (i j : Nat) (hint : relIntegrity s.model) :
    relIntegrity (reorderEntities s i j).model := by
  intro r hr
  have hrels : (reorderEntities s i j).model.relationships = s.model.relationships := rfl
  rw [hrels] at hr
  obtain ⟨h1, h2⟩ := hint r hr
  exact ⟨entityIds_reorder_mem s i j _ h1, entityIds_reorder_mem s i j _ h2⟩

theorem integrity_deleteEntity (s : ModelState) (entityId : String)
    (hint : relIntegrity s.model) : relIntegrity (deleteEntity s entityId).model := by
  intro r hr
  simp only [deleteEntity, List.mem_filter, Bool.and_eq_true, bne_iff_ne] at hr
  obtain ⟨hmem, hfrom, hto⟩ := hr
  obtain ⟨h1, h2⟩ := hint r hmem
  constructor
  · simp only [entityIds, List.mem_map] at h1 ⊢
    obtain ⟨e, he, heq⟩ := h1
    exact ⟨e, by simp [deleteEntity, List.mem_filter, he, bne_iff_ne, heq ▸ hfrom], heq⟩
  · simp only [entityIds, List.mem_map] at h2 ⊢
    obtain ⟨e, he, heq⟩ := h2
    exact ⟨e, by simp [deleteEntity, List.mem_filter, he, bne_iff_ne, heq ▸ hto], heq⟩

theorem integrity_addEntity (s : ModelState) (now : Nat) (hint : relIntegrity s.model) :
    relIntegrity (addEntity s now).model := by
  intro r hr
  have hr' : r ∈ s.model.relationships := hr
  obtain ⟨h1, h2⟩ := hint r hr'
  have hsub : ∀ y : String, y ∈ entityIds s.model → y ∈ entityIds (addEntity s now).model := by
    intro y hy
    simp only [entityIds, addEntity, List.map_append, List.mem_append]
    exact Or.inl hy
  exact ⟨hsub _ h1, hsub _ h2⟩

theorem integrity_addRelationship (s : ModelState) (fromId toId label : String)
    (now : Nat) (hfrom : fromId ∈ entityIds s.model) (hto : toId ∈ entityIds s.model)
    (hint : relIntegrity s.model) :
    relIntegrity (addRelationship s fromId toId label now).model := by
  intro r hr
  have hids : entityIds (addRelationship s fromId toId label now).model
      = entityIds s.model := rfl
  rw [hids]
  have hr' : r ∈ s.model.relationships ++
      [{ id := "rel-" ++ toString now, «from» := fromId, «to» := toId, label := label }] := hr
  rcases List.mem_append.1 hr' with hold | hnew
  · exact hint r hold
  · have hreq : r
        = { id := "rel-" ++ toString now, «from» := fromId, «to» := toId, label := label } := by
      simpa using hnew
    rw [hreq]
    exact ⟨hfrom, hto⟩

theorem integrity_updateRelationshipLabel (s : ModelState) (relId newLabel : String)
    (hint : relIntegrity s.model) :
    relIntegrity (updateRelationshipLabel s relId newLabel).model := by
  intro r hr
  have hids : entityIds (updateRelationshipLabel s relId newLabel).model
      = entityIds s.model := by
    unfold entityIds
    rw [entities_updateRelationshipLabel]
  rw [hids]
  revert hr
  unfold updateRelationshipLabel
  cases hfind : s.model.relationships.find? (fun x => x.id == relId) with
  | none =>
    intro hr
    exact hint r hr
  | some oldRel =>
    intro hr
    have holdmem : oldRel ∈ s.model.relationships := List.mem_of_find?_eq_some hfind
    obtain ⟨hof, hot⟩ := hint oldRel holdmem
    simp only [List.mem_map] at hr
    obtain ⟨a, ha, haeq⟩ := hr
    by_cases hid : (a.id == relId) = true
    · rw [hid] at haeq
      simp only [if_true] at haeq
      by_cases hflip : ((oldRel.label == "contains" && newLabel == "belongs to") ||
          (oldRel.label == "belongs to" && newLabel == "contains")) = true
      · rw [hflip] at haeq
        simp only [if_true] at haeq
        rw [← haeq]
        exact ⟨hot, hof⟩
      · rw [Bool.not_eq_true] at hflip
        rw [hflip] at haeq
        simp only [Bool.false_eq_true, if_false] at haeq
        rw [← haeq]
        exact ⟨hof, hot⟩
    · rw [Bool.not_eq_true] at hid
      rw [hid] at haeq
      simp only [Bool.false_eq_true, if_false] at haeq
      rw [← haeq]
      exact hint a ha

/-- Integrity is preserved by every Mutation Engine operation that obeys
the documented call discipline. -/
theorem integrity_applyOp (s : ModelState) (op : MutOp)
    (hint : relIntegrity s.model) (hgood : goodOp s op) :
    relIntegrity (applyOp s op).model := by
  cases op with
  | addEntity now => exact integrity_addEntity s now hint
  | deleteEntity entityId => exact integrity_deleteEntity s entityId hint
  | updateEntity entityId updates => exact integrity_updateEntity s entityId updates hgood hint
  | reorderEntities oldIndex newIndex => exact integrity_reorder s oldIndex newIndex hint
  | addRelationship fromId toId label now =>
    exact integrity_addRelationship s fromId toId label now hgood.1 hgood.2 hint
  | updateRelationshipLabel relId newLabel =>
    exact integrity_updateRelationshipLabel s relId newLabel hint
  | addAttribute entityId =>
    simp only [applyOp, addAttribute]
    cases s.model.entities.find? (fun e => e.id == entityId) with
    | none => exact hint
    | some entity => exact integrity_updateEntity s entityId _ rfl hint
  | addState entityId =>
    simp only [applyOp, addState]
    cases s.model.entities.find? (fun e => e.id == entityId) with
    | none => exact hint
    | some entity => exact integrity_updateEntity s entityId _ rfl hint
  | addAction entityId =>
    simp only [applyOp, addAction]
    cases s.model.entities.find? (fun e => e.id == entityId) with
    | none => exact hint
    | some entity => exact integrity_updateEntity s entityId _ rfl hint
  | removeAttribute entityId index =>
    simp only [applyOp, removeAttribute]
    cases s.model.entities.find? (fun e => e.id == entityId) with
    | none => exact hint
    | some entity => exact integrity_updateEntity s entityId _ rfl hint
  | removeState entityId index =>
    simp only [applyOp, removeState]
    cases s.model.entities.find? (fun e => e.id == entityId) with
    | none => exact hint
    | some entity => exact integrity_updateEntity s entityId _ rfl hint
  | removeAction entityId index =>
    simp only [applyOp, removeAction]
    cases s.model.entities.find? (fun e => e.id == entityId) with
    | none => exact hint
    | some entity => exact integrity_updateEntity s entityId _ rfl hint
  | updateAttribute entityId index field value =>
    simp only [applyOp, updateAttribute]
    cases s.model.entities.find? (fun e => e.id == entityId) with
    | none => exact hint
    | some entity => exact integrity_updateEntity s entityId _ rfl hint
  | updateState entityId index value =>
    simp only [applyOp, updateState]
    cases s.model.entities.find? (fun e => e.id == entityId) with
    | none => exact hint
    | some entity => exact integrity_updateEntity s entityId _ rfl hint
  | updateAction entityId index value =>
    simp only [applyOp, updateAction]
    cases s.model.entities.find? (fun e => e.id == entityId) with
    | none => exact hint
    | some entity => exact integrity_updateEntity s entityId _ rfl hint

/-- C2 counterexample: the claim quantifies over any sequence of the listed
Mutation Engine operations, but `addRelationship` does not validate
entity existence and `updateEntity` accepts an id rewrite, so integrity
is violable from the initial empty document: a single raw
`addRelationship "a" "b"` dangles on both ends, and renaming an entity's
id through `updateEntity` strands an existing relationship. -/
theorem claim2_counterexample :
    ¬ relIntegrity (runOps initialState
        [.addRelationship "a" "b" "relates to" 0]).model ∧
    ¬ relIntegrity (runOps initialState
        [.addEntity 0, .addEntity 1,
         .addRelationship "entity-0" "entity-1" "relates to" 2,
         .updateEntity "entity-0" { id := some "zzz" }]).model := by
  decide

/-- C2 (amended): referential integrity holds for every store state
reachable from the initial empty document by Mutation Engine operations
that obey the documented call discipline (`goodOp`): `addRelationship`
invoked only with ids of entities present at the call — as the gesture
controller guarantees — and `updateEntity` not used to rewrite an
entity's `id`.  Without that discipline the operation surface violates
integrity (see the counterexample). -/
theorem claim2_referential_integrity (s : ModelState) (h : ReachGood s) :
    relIntegrity s.model := by
  induction h with
  | init =>
    intro r hr
    simp [initialState, initialModel] at hr
  | step op hr hgood ih =>
    exact integrity_applyOp _ op ih hgood

/-- C2 witness: integrity evaluated on a concrete reachable state — two
entities created and connected through the documented discipline. -/
theorem claim2_referential_integrity_witness :
    relIntegrity (applyOp (applyOp (applyOp initialState (.addEntity 0))
      (.addEntity 1)) (.addRelationship "entity-0" "entity-1" "relates to" 2)).model :=
  claim2_referential_integrity _
    (ReachGood.step _
      (ReachGood.step _ (ReachGood.step _ ReachGood.init trivial) trivial)
      (by decide))

/-! ## C7 — history record -/

theorem getLast?_drop_of_lt (l : List α) (k : Nat) (h : k < l.length) :
    (l.drop k).getLast? = l.getLast? := by
  induction l generalizing k with
  | nil => simp at h
  | cons a t ih =>
    cases k with
    | zero => rfl
    | succ k =>
      simp only [List.drop_succ_cons]
      rw [ih k (by simpa using h)]
      cases t with
      | nil => simp at h
      | cons b t' => rfl

/-- C7: `record` is a no-op exactly when the document deep-equals the
snapshot at the cursor; otherwise the new snapshot list is the truncation
to `[0..cursor]` with the document appended, trimmed from the front to
the bound 50 (the `drop` is vacuous while the bound is not exceeded), the
cursor points at the new last index, the last snapshot is the recorded
document, and the length is capped at 50. -/
theorem claim7_history_record (h : TemporalHistory) (d : Model) :
    (h.snapshots[h.cursor]? = some d → record h d = h) ∧
    (h.snapshots[h.cursor]? ≠ some d →
      (record h d).snapshots
        = (h.snapshots.take (h.cursor + 1) ++ [d]).drop
            ((h.snapshots.take (h.cursor + 1) ++ [d]).length - 50) ∧
      (record h d).snapshots.getLast? = some d ∧
      (record h d).cursor = (record h d).snapshots.length - 1 ∧
      (record h d).snapshots.length
        = min (h.snapshots.take (h.cursor + 1) ++ [d]).length 50) := by
  constructor
  · intro heq
    unfold record
    rw [if_pos heq]
  · intro hne
    unfold record
    rw [if_neg hne]
    set appended := h.snapshots.take (h.cursor + 1) ++ [d] with happ
    by_cases hlen : appended.length > 50
    · rw [if_pos hlen]
      simp only
      have hdroplen : (appended.drop (appended.length - 50)).length = 50 := by
        rw [List.length_drop]
        omega
      refine ⟨trivial, ?_, ?_, ?_⟩
      · rw [getLast?_drop_of_lt _ _ (by omega), happ]
        exact List.getLast?_concat _
      · rw [hdroplen]
      · rw [hdroplen]
        omega
    · rw [if_neg hlen]
      simp only
      have hz : appended.length - 50 = 0 := by omega
      refine ⟨?_, ?_, trivial, ?_⟩
      · rw [hz, List.drop_zero]
      · rw [happ]
        exact List.getLast?_concat _
      · omega

/-- C7 witness: recording a changed document on a singleton history. -/
theorem claim7_history_record_witness :
    (record { snapshots := [initialModel], cursor := 0 } selectedState.model).snapshots
      = (([initialModel].take 1 ++ [selectedState.model]).drop
          (([initialModel].take 1 ++ [selectedState.model]).length - 50)) ∧
    (record { snapshots := [initialModel], cursor := 0 } selectedState.model).snapshots.getLast?
      = some selectedState.model ∧
    (record { snapshots := [initialModel], cursor := 0 } selectedState.model).cursor
      = (record { snapshots := [initialModel], cursor := 0 } selectedState.model).snapshots.length - 1 ∧
    (record { snapshots := [initialModel], cursor := 0 } selectedState.model).snapshots.length
      = min ([initialModel].take 1 ++ [selectedState.model]).length 50 :=
  (claim7_history_record { snapshots := [initialModel], cursor := 0 }
    selectedState.model).2 (by decide)

/-! ## C8 — import validation and atomicity -/

/-- Bad input shapes make the validation fail: the import computes an
error value. -/
theorem validateImport_error_of_bad (v : JsValue) (hbad : importShapeBad v = true) :
    ∃ msg, validateImport v = Except.error msg := by
  cases v with
  | obj fields =>
    have hv : validateImport (.obj fields)
        = (match (jsLookup fields "entities").getD .undefined with
           | .arr entityItems =>
             (match (jsLookup fields "relationships").getD .undefined with
              | .arr relItems => Except.ok (entityItems, relItems)
              | _ => Except.error "Invalid file format: missing or invalid relationships array")
           | _ => Except.error "Invalid file format: missing or invalid entities array") := rfl
    cases hE : (jsLookup fields "entities").getD .undefined with
    | arr entityItems =>
      have hrel : ((jsLookup fields "relationships").getD .undefined).isArr = false := by
        simp only [importShapeBad, Bool.or_eq_true, Bool.not_eq_true'] at hbad
        rcases hbad with hb | hb
        · rw [hE] at hb
          simp [JsValue.isArr] at hb
        · exact hb
      cases hR : (jsLookup fields "relationships").getD .undefined with
      | arr relItems =>
        rw [hR] at hrel
        simp [JsValue.isArr] at hrel
      | null => rw [hv, hE, hR]; exact ⟨_, rfl⟩
      | undefined => rw [hv, hE, hR]; exact ⟨_, rfl⟩
      | bool b => rw [hv, hE, hR]; exact ⟨_, rfl⟩
      | num n => rw [hv, hE, hR]; exact ⟨_, rfl⟩
      | str s => rw [hv, hE, hR]; exact ⟨_, rfl⟩
      | obj fs => rw [hv, hE, hR]; exact ⟨_, rfl⟩
    | null => rw [hv, hE]; exact ⟨_, rfl⟩
    | undefined => rw [hv, hE]; exact ⟨_, rfl⟩
    | bool b => rw [hv, hE]; exact ⟨_, rfl⟩
    | num n => rw [hv, hE]; exact ⟨_, rfl⟩
    | str s => rw [hv, hE]; exact ⟨_, rfl⟩
    | obj fs => rw [hv, hE]; exact ⟨_, rfl⟩
  | null => exact ⟨_, rfl⟩
  | undefined => exact ⟨_, rfl⟩
  | bool b => exact ⟨_, rfl⟩
  | num n => exact ⟨_, rfl⟩
  | str msg => exact ⟨_, rfl⟩
  | arr elems => exact ⟨_, rfl⟩

/-- C8: when the parsed top-level value is not an object, or its
`entities` field is missing or not an array, or its `relationships`
field is missing or not an array, the import fails with a validation
error and the whole handler leaves the document, the selection, and the
history unchanged. -/
theorem claim8_import_validation (s : ImportState) (v : JsValue) (confirmReplace : Bool)
    (hbad : importShapeBad v = true) :
    (∃ msg, validateImport v = Except.error msg) ∧
    handleFileImport s v confirmReplace = s := by
  obtain ⟨msg, hmsg⟩ := validateImport_error_of_bad v hbad
  refine ⟨⟨msg, hmsg⟩, ?_⟩
  unfold handleFileImport
  rw [hmsg]

/-- A concrete pre-import state with a non-empty document, a selection,
and one history entry. -/
def importFixtureState : ImportState :=
  { docEntities := [.str "keep me"]
    docRelationships := []
    selection := some (.str "A")
    history := [([.str "keep me"], [])] }

/-- The spec's concrete failing payload: the parse of
`'\x7b"entities":[],"relationships":"x"\x7d'`. -/
def badImportPayload : JsValue :=
  .obj [("entities", .arr []), ("relationships", .str "x")]

/-- C8 witness: the concrete scenario — `entities` an array but
`relationships` the string "x" — fails validation and leaves the state
exactly as it was. -/
theorem claim8_import_validation_witness :
    (∃ msg, validateImport badImportPayload = Except.error msg) ∧
    handleFileImport importFixtureState badImportPayload true = importFixtureState :=
  claim8_import_validation importFixtureState badImportPayload true rfl

end OOUX
